import Mathlib

/-!
Verification of the debugger process-control core (DNBArchMachARM and
BreakpointLocationList) against its specification.

The register-state error tracking (`State`, `GetError`, `SetError`,
`RegsAreValid`) is embedded directly from `DNBArchImpl.h`.  Functions whose
bodies are not part of this repository snapshot (only their declarations are)
are modelled from the specification; each such definition carries a doc
comment saying so.
-/

namespace DNBArchMachARM

/-- `kern_return_t` is the Mach OS error-code type, a C `int`. -/
abbrev kern_return_t := Int

/-- The Mach success code. -/
def KERN_SUCCESS : kern_return_t := 0

/-- Value of `REGISTER_SET_ALL` from `DNBArch.h` (not under the snapshot):
the aggregate register-set tag. -/
def REGISTER_SET_ALL : Int := 0

/-- Value of `ARM_THREAD_STATE` from the Mach ARM headers. -/
def ARM_THREAD_STATE : Int := 1

/-- Value of `ARM_VFP_STATE` from the Mach ARM headers. -/
def ARM_VFP_STATE : Int := 2

/-- Value of `ARM_EXCEPTION_STATE` from the Mach ARM headers. -/
def ARM_EXCEPTION_STATE : Int := 3

/-- Value of `ARM_DEBUG_STATE` from the Mach ARM headers. -/
def ARM_DEBUG_STATE : Int := 4

/-- `e_regSetALL` from the `RegisterSetTag` enum. -/
def e_regSetALL : Int := REGISTER_SET_ALL

/-- `e_regSetGPR` from the `RegisterSetTag` enum. -/
def e_regSetGPR : Int := ARM_THREAD_STATE

/-- `e_regSetVFP` from the `RegisterSetTag` enum. -/
def e_regSetVFP : Int := ARM_VFP_STATE

/-- `e_regSetEXC` from the `RegisterSetTag` enum. -/
def e_regSetEXC : Int := ARM_EXCEPTION_STATE

/-- `e_regSetDBG` from the `RegisterSetTag` enum. -/
def e_regSetDBG : Int := ARM_DEBUG_STATE

/-- Error-index `Read` (= 0) of the per-set error arrays. -/
def Read : Nat := 0

/-- Error-index `Write` (= 1) of the per-set error arrays. -/
def Write : Nat := 1

/-- `kNumErrors` (= 2): each register set has a read error and a write error. -/
def kNumErrors : Nat := 2

/-- `arm_thread_state_t`, `arm_vfp_state_t`, `arm_exception_state_t` and
`arm_debug_state_t` are OS-defined register blocks whose layout is outside
this repository; each is modelled as an opaque payload. -/
abbrev GPR := Nat

/-- Opaque payload for `arm_vfp_state_t`. -/
abbrev FPU := Nat

/-- Opaque payload for `arm_exception_state_t`. -/
abbrev EXC := Nat

/-- Opaque payload for `arm_debug_state_t`. -/
abbrev DBG := Nat

/-- `struct Context { GPR gpr; FPU vfp; EXC exc; }`. -/
structure Context where
  gpr : GPR
  vfp : FPU
  exc : EXC
deriving DecidableEq, Repr

/-- A two-element `kern_return_t` array `errs[2]`, indexed by `Read`/`Write`. -/
abbrev ErrPair := kern_return_t × kern_return_t

/-- Read `errs[i]` of a two-element error array (all callers guard `i < 2`). -/
def errGet (errs : ErrPair) (i : Nat) : kern_return_t :=
  if i = 0 then errs.1 else errs.2

/-- Write `errs[i] = e` in a two-element error array (all callers guard `i < 2`). -/
def errSet (errs : ErrPair) (i : Nat) (e : kern_return_t) : ErrPair :=
  if i = 0 then (e, errs.2) else (errs.1, e)

/-- `struct State` of `DNBArchMachARM`: one register context, one debug
block, and per-set read/write error arrays. -/
structure State where
  context : Context
  dbg : DBG
  gpr_errs : ErrPair
  vfp_errs : ErrPair
  exc_errs : ErrPair
  dbg_errs : ErrPair
deriving DecidableEq, Repr

/-- The `State()` constructor: every error slot is set to `-1`; the register
context and debug block are left uninitialized, modelled by taking their
indeterminate initial contents as arguments. -/
def State.init (ctx : Context) (dbg : DBG) : State :=
  { context := ctx
    dbg := dbg
    gpr_errs := (-1, -1)
    vfp_errs := (-1, -1)
    exc_errs := (-1, -1)
    dbg_errs := (-1, -1) }

/-- `State::GetError(set, err_idx)`: for `e_regSetALL` the four per-set errors
are bitwise-ORed together; a single set returns its own error; anything else
(or an out-of-range index) returns `-1`. -/
def State.GetError (s : State) (set : Int) (err_idx : Nat) : kern_return_t :=
  if err_idx < kNumErrors then
    if set = e_regSetALL then
      Int.lor (Int.lor (Int.lor (errGet s.gpr_errs err_idx)
                                (errGet s.vfp_errs err_idx))
                       (errGet s.exc_errs err_idx))
              (errGet s.dbg_errs err_idx)
    else if set = e_regSetGPR then errGet s.gpr_errs err_idx
    else if set = e_regSetVFP then errGet s.vfp_errs err_idx
    else if set = e_regSetEXC then errGet s.exc_errs err_idx
    else if set = e_regSetDBG then errGet s.dbg_errs err_idx
    else -1
  else -1

/-- `State::SetError(set, err_idx, err)`: returns whether the set tag and
index were recognized, together with the updated state (the C++ member
function mutates in place; the embedding returns the new state). -/
def State.SetError (s : State) (set : Int) (err_idx : Nat) (err : kern_return_t) :
    Bool × State :=
  if err_idx < kNumErrors then
    if set = e_regSetALL then
      (true, { s with gpr_errs := errSet s.gpr_errs err_idx err
                      vfp_errs := errSet s.vfp_errs err_idx err
                      dbg_errs := errSet s.dbg_errs err_idx err
                      exc_errs := errSet s.exc_errs err_idx err })
    else if set = e_regSetGPR then
      (true, { s with gpr_errs := errSet s.gpr_errs err_idx err })
    else if set = e_regSetVFP then
      (true, { s with vfp_errs := errSet s.vfp_errs err_idx err })
    else if set = e_regSetEXC then
      (true, { s with exc_errs := errSet s.exc_errs err_idx err })
    else if set = e_regSetDBG then
      (true, { s with dbg_errs := errSet s.dbg_errs err_idx err })
    else (false, s)
  else (false, s)

/-- `State::InvalidateRegisterSetState(set)` = `SetError(set, Read, -1)`. -/
def State.InvalidateRegisterSetState (s : State) (set : Int) : State :=
  (s.SetError set Read (-1)).2

/-- `State::RegsAreValid(set)` = `GetError(set, Read) == KERN_SUCCESS`. -/
def State.RegsAreValid (s : State) (set : Int) : Bool :=
  s.GetError set Read == KERN_SUCCESS

/-- Modelled from the spec: the body of `DNBArchMachARM::ConditionPassed` is
not under the snapshot (only its declaration is).  Per the spec it evaluates
the 15 defined ARM condition codes (EQ, NE, CS, CC, MI, PL, VS, VC, HI, LS,
GE, LT, GT, LE, AL, encoded 0 through 14) against the N/Z/C/V flags of the
`cpsr` argument (N = bit 31, Z = bit 30, C = bit 29, V = bit 28) exactly per
the architecture's condition table. -/
def ConditionPassed (condition : Nat) (cpsr : Nat) : Bool :=
  let n := cpsr.testBit 31
  let z := cpsr.testBit 30
  let c := cpsr.testBit 29
  let v := cpsr.testBit 28
  match condition with
  | 0 => z
  | 1 => !z
  | 2 => c
  | 3 => !c
  | 4 => n
  | 5 => !n
  | 6 => v
  | 7 => !v
  | 8 => c && !z
  | 9 => !c || z
  | 10 => n == v
  | 11 => !(n == v)
  | 12 => !z && (n == v)
  | 13 => z || !(n == v)
  | 14 => true
  | _ => false

/-- The ARM condition table as the claim states it, written directly over the
four flag booleans, row by row in the order EQ, NE, CS, CC, MI, PL, VS, VC,
HI, LS, GE, LT, GT, LE, AL. -/
def armCondTable : Nat → Bool → Bool → Bool → Bool → Bool
  | 0, _, z, _, _ => z
  | 1, _, z, _, _ => !z
  | 2, _, _, c, _ => c
  | 3, _, _, c, _ => !c
  | 4, n, _, _, _ => n
  | 5, n, _, _, _ => !n
  | 6, _, _, _, v => v
  | 7, _, _, _, v => !v
  | 8, _, z, c, _ => c && !z
  | 9, _, z, c, _ => !c || z
  | 10, n, _, _, v => n == v
  | 11, n, _, _, v => !(n == v)
  | 12, n, z, _, v => !z && (n == v)
  | 13, n, z, _, v => z || !(n == v)
  | 14, _, _, _, _ => true
  | _, _, _, _, _ => false

/-- Modelled from the spec: `arm_decoded_instruction_t` belongs to the
disassembler framework, which is outside the snapshot.  Per the spec the
decode oracle yields the condition code, the instruction size, whether the
instruction is a taken branch/indirect-jump/return, the decoded branch
target, and whether the branch changes instruction set (Thumb toggling). -/
structure DecodedInstruction where
  condition : Nat
  size : Nat
  isBranch : Bool
  target : Nat
  modeChanging : Bool
deriving DecidableEq, Repr

/-- Modelled from the spec: the body of `DNBArchMachARM::ComputeNextPC` is
not under the snapshot (only its declaration is).  Per the spec: if the
instruction is a taken branch/indirect-jump/return and its condition passes,
the next PC is the decoded target, with the Thumb bit toggled on
mode-changing branches; otherwise next PC = PC + instruction size. -/
def ComputeNextPC (currentPC : Nat) (d : DecodedInstruction) (cpsr : Nat) : Nat :=
  if d.isBranch && ConditionPassed d.condition cpsr then
    if d.modeChanging then Nat.xor d.target 1 else d.target
  else
    currentPC + d.size

/-- Value of `INVALID_NUB_HW_INDEX` (`UINT32_MAX`) from `DNBDefs.h`, the
no-free-slot / failure sentinel of the hardware-slot calls. -/
def INVALID_NUB_HW_INDEX : Nat := 4294967295

/-- Modelled from the spec: one hardware breakpoint/watchpoint slot (§3
HardwareSlot): address, size, enabled flag, access mode.  The slot table
models the cached debug-register block (`DBG`) of the owning state. -/
structure HardwareSlot where
  addr : Nat
  size : Nat
  enabled : Bool
  read : Bool
  write : Bool
deriving DecidableEq, Repr

/-- Scan a slot table from position `i` for the first free (not enabled)
entry, as the spec's `Enable` calls scan for a compatible free entry. -/
def findFreeSlotIdx : List HardwareSlot → Nat → Option Nat
  | [], _ => none
  | s :: rest, i => if s.enabled then findFreeSlotIdx rest (i + 1) else some i

/-- Natural alignment validation for watchpoints, per the spec: the size must
be one of the platform's allowed sizes (1/2/4/8 bytes) and the address must
be naturally aligned to it. -/
def validWatchpointAlignment (addr size : Nat) : Bool :=
  (size == 1 || size == 2 || size == 4 || size == 8) && addr % size == 0

/-- Modelled from the spec: the body of
`DNBArchMachARM::EnableHardwareWatchpoint` is not under the snapshot (only
its declaration is).  Per the spec it validates natural alignment before
touching any hardware state (a misaligned request fails with the sentinel and
changes nothing), then scans for a free slot and programs it; with no free
slot it returns the sentinel.  The process-level mirroring controlled by the
final flag is outside the modelled per-thread state. -/
def EnableHardwareWatchpoint (slots : List HardwareSlot) (addr size : Nat)
    (rd wr _also_set_on_task : Bool) : Nat × List HardwareSlot :=
  if validWatchpointAlignment addr size then
    match findFreeSlotIdx slots 0 with
    | some i => (i, slots.set i ⟨addr, size, true, rd, wr⟩)
    | none => (INVALID_NUB_HW_INDEX, slots)
  else (INVALID_NUB_HW_INDEX, slots)

/-- Modelled from the spec: the body of
`DNBArchMachARM::EnableHardwareBreakpoint` is not under the snapshot (only
its declaration is).  Per the spec it scans the slot table for a free entry,
programs it into the cached debug state and returns the slot index, or
returns the no-free-slot sentinel. -/
def EnableHardwareBreakpoint (slots : List HardwareSlot) (addr size : Nat) :
    Nat × List HardwareSlot :=
  match findFreeSlotIdx slots 0 with
  | some i => (i, slots.set i ⟨addr, size, true, false, false⟩)
  | none => (INVALID_NUB_HW_INDEX, slots)

/-- Modelled from the spec: the body of
`DNBArchMachARM::DisableHardwareBreakpoint` is not under the snapshot (only
its declaration is).  Per the spec it clears the slot's enable bit; an
out-of-range index fails. -/
def DisableHardwareBreakpoint (slots : List HardwareSlot) (i : Nat) :
    Bool × List HardwareSlot :=
  if i < slots.length then
    (true, slots.set i { slots.getD i ⟨0, 0, false, false, false⟩ with enabled := false })
  else (false, slots)

end DNBArchMachARM

namespace lldb_private

/-- `lldb::break_id_t`, the breakpoint-location id type. -/
abbrev break_id_t := Nat

/-- An `lldb_private::Address` is modelled as its resolved load address. -/
abbrev Address := Nat

/-- Modelled from the spec: a `BreakpointLocation` as the registry sees it,
identified by its location id and carrying its resolved address (the owning
breakpoint id, enabled flag and hit count play no role in these claims). -/
structure BreakpointLocation where
  id : break_id_t
  addr : Address
deriving DecidableEq, Repr

/-- `BreakpointLocationList` data members from the header: the location list,
the parallel address index, and the id counter `m_next_id`. -/
structure BreakpointLocationList where
  m_locations : List BreakpointLocation
  m_address_to_location : List (Address × BreakpointLocation)
  m_next_id : break_id_t
deriving DecidableEq, Repr

/-- Modelled from the spec: the constructor builds an empty registry; the id
counter starts below every id it will ever issue. -/
def BreakpointLocationList.empty : BreakpointLocationList :=
  ⟨[], [], 0⟩

/-- `BreakpointLocationList::GetSize()` = `m_locations.size()`, inline in the
header. -/
def BreakpointLocationList.GetSize (l : BreakpointLocationList) : Nat :=
  l.m_locations.length

/-- Modelled from the spec: `FindByAddress` looks `addr` up in the address
index; absent means an explicitly invalid handle (`none`). -/
def BreakpointLocationList.FindByAddress (l : BreakpointLocationList)
    (addr : Address) : Option BreakpointLocation :=
  match l.m_address_to_location.find? (fun p => p.1 == addr) with
  | some p => some p.2
  | none => none

/-- Modelled from the spec: the body of `BreakpointLocationList::Create` is
not under the snapshot (only its declaration is).  Per the spec it allocates
a monotonically increasing id (never reused) and inserts the new location
into both the location list and the address index. -/
def BreakpointLocationList.Create (l : BreakpointLocationList)
    (addr : Address) : BreakpointLocation × BreakpointLocationList :=
  let id := l.m_next_id + 1
  let loc : BreakpointLocation := ⟨id, addr⟩
  (loc, ⟨l.m_locations ++ [loc], (addr, loc) :: l.m_address_to_location, id⟩)

/-- Modelled from the spec: the body of `BreakpointLocationList::AddLocation`
is not under the snapshot (only its declaration is).  Per the spec: if `addr`
is already indexed it returns the existing location with `new_location =
false`, idempotently; otherwise it creates a location via `Create` and
reports `new_location = true`.  Result: (location, new_location, registry). -/
def BreakpointLocationList.AddLocation (l : BreakpointLocationList)
    (addr : Address) : BreakpointLocation × Bool × BreakpointLocationList :=
  match l.FindByAddress addr with
  | some loc => (loc, false, l)
  | none =>
    let p := l.Create addr
    (p.1, true, p.2)

/-- Modelled from the spec: the body of
`BreakpointLocationList::RemoveLocation` is not under the snapshot (only its
declaration is).  Per the spec it removes the location from both the list and
the index and reports whether it was present; `m_next_id` is untouched. -/
def BreakpointLocationList.RemoveLocation (l : BreakpointLocationList)
    (loc : BreakpointLocation) : Bool × BreakpointLocationList :=
  if l.m_locations.contains loc then
    (true, ⟨l.m_locations.filter (fun x => !(x == loc)),
            l.m_address_to_location.filter (fun p => !(p.2 == loc)),
            l.m_next_id⟩)
  else (false, l)

/-- The addresses currently present in the address index. -/
def BreakpointLocationList.keys (l : BreakpointLocationList) : List Address :=
  l.m_address_to_location.map Prod.fst

/-- Run a sequence of `AddLocation` calls against a registry. -/
def BreakpointLocationList.runAdds (l : BreakpointLocationList)
    (addrs : List Address) : BreakpointLocationList :=
  addrs.foldl (fun acc a => (acc.AddLocation a).2.2) l

/-- Count how many of the `AddLocation` calls in a sequence create a new
location (address not yet indexed at the time of the call). -/
def BreakpointLocationList.newAddrCount (l : BreakpointLocationList) :
    List Address → Nat
  | [] => 0
  | a :: rest =>
    (if (l.FindByAddress a).isSome then 0 else 1) +
      BreakpointLocationList.newAddrCount (l.AddLocation a).2.2 rest

/-- A registry operation: an `AddLocation` call or a `RemoveLocation` call. -/
inductive BpOp where
  | add : Address → BpOp
  | remove : BreakpointLocation → BpOp
deriving DecidableEq, Repr

/-- Apply one registry operation. -/
def applyOp (l : BreakpointLocationList) : BpOp → BreakpointLocationList
  | .add a => (l.AddLocation a).2.2
  | .remove loc => (l.RemoveLocation loc).2

/-- The ids issued by one registry operation: an `AddLocation` on a fresh
address issues `m_next_id + 1`, everything else issues nothing. -/
def issuedOp (l : BreakpointLocationList) : BpOp → List break_id_t
  | .add a => if (l.FindByAddress a).isSome then [] else [l.m_next_id + 1]
  | .remove _ => []

/-- Run a trace of registry operations, accumulating every id ever issued. -/
def runTrace : BreakpointLocationList × List break_id_t → List BpOp →
    BreakpointLocationList × List break_id_t
  | p, [] => p
  | (l, ids), op :: rest => runTrace (applyOp l op, ids ++ issuedOp l op) rest

end lldb_private

namespace DNBArchMachARM

/-- A fixed register context used by concrete evaluations. -/
def ctx0 : Context := ⟨0, 0, 0⟩

/-- Concrete state with four distinct per-set read errors. -/
def sW1 : State :=
  { context := ctx0, dbg := 0
    gpr_errs := (1, 0), vfp_errs := (2, 0), exc_errs := (4, 0), dbg_errs := (8, 0) }

/-- Concrete state whose GPR read error is the initial failure code `-1`. -/
def sW2 : State :=
  { context := ctx0, dbg := 0
    gpr_errs := (-1, 0), vfp_errs := (0, 0), exc_errs := (0, 0), dbg_errs := (0, 0) }

/-- Concrete fully-successful state. -/
def sW9 : State :=
  { context := ctx0, dbg := 0
    gpr_errs := (0, 0), vfp_errs := (0, 0), exc_errs := (0, 0), dbg_errs := (0, 0) }

/-- Concrete decoded conditional branch: condition EQ, size 4, branch with
target 100, no instruction-set change. -/
def dW4 : DecodedInstruction := ⟨0, 4, true, 100, false⟩

/-- Concrete one-slot watchpoint table, slot free. -/
def wpSlotsW : List HardwareSlot := [⟨0, 4, false, true, true⟩]

/-- Concrete two-slot breakpoint table with every slot allocated. -/
def bpSlotsW : List HardwareSlot :=
  [⟨0, 4, true, false, false⟩, ⟨4, 4, true, false, false⟩]

end DNBArchMachARM

namespace lldb_private

/-- Concrete registry holding one location, id 1 at address 5. -/
def lW : BreakpointLocationList := ⟨[⟨1, 5⟩], [(5, ⟨1, 5⟩)], 1⟩

/-- Concrete trace: create a location at address 5 (issuing id 1), then
remove it. -/
def opsW : List BpOp := [BpOp.add 5, BpOp.remove ⟨1, 5⟩]

end lldb_private

namespace DNBArchMachARM

/-- A bitwise OR of naturals is zero exactly when both operands are zero. -/
theorem nat_lor_eq_zero_iff (m n : Nat) : m ||| n = 0 ↔ m = 0 ∧ n = 0 := by
  constructor
  · intro h
    constructor <;> apply Nat.zero_of_testBit_eq_false <;> intro i
    · have hb : (m ||| n).testBit i = false := by rw [h]; exact Nat.zero_testBit i
      rw [Nat.testBit_lor] at hb
      exact (Bool.or_eq_false_iff.mp hb).1
    · have hb : (m ||| n).testBit i = false := by rw [h]; exact Nat.zero_testBit i
      rw [Nat.testBit_lor] at hb
      exact (Bool.or_eq_false_iff.mp hb).2
  · rintro ⟨rfl, rfl⟩
    rfl

/-- A bitwise OR of integers is zero only when both operands are zero. -/
theorem int_lor_eq_zero (a b : Int) (h : Int.lor a b = 0) : a = 0 ∧ b = 0 := by
  cases a with
  | ofNat m =>
    cases b with
    | ofNat n =>
      have h2 : ((m ||| n : Nat) : Int) = 0 := h
      have h3 : m ||| n = 0 := by exact_mod_cast h2
      have h4 := (nat_lor_eq_zero_iff m n).mp h3
      exact ⟨by rw [h4.1]; rfl, by rw [h4.2]; rfl⟩
    | negSucc n => exact Int.noConfusion h
  | negSucc m =>
    cases b with
    | ofNat n => exact Int.noConfusion h
    | negSucc n => exact Int.noConfusion h

/-- A four-way bitwise OR of integers is zero only when every operand is. -/
theorem int_lor4_eq_zero (g v e d : Int)
    (h : Int.lor (Int.lor (Int.lor g v) e) d = 0) :
    g = 0 ∧ v = 0 ∧ e = 0 ∧ d = 0 := by
  obtain ⟨h3, hd⟩ := int_lor_eq_zero _ _ h
  obtain ⟨h2, he⟩ := int_lor_eq_zero _ _ h3
  obtain ⟨hg, hv⟩ := int_lor_eq_zero _ _ h2
  exact ⟨hg, hv, he, hd⟩

/-- C1: for every `State` and every error index `idx < kNumErrors` (`Read` or
`Write`), `GetError(e_regSetALL, idx)` is exactly the bitwise OR of the four
per-set errors `gpr_errs[idx] | vfp_errs[idx] | exc_errs[idx] | dbg_errs[idx]`,
for every combination of stored error values. -/
theorem State.getError_all_eq_lor (s : State) (idx : Nat) (h : idx < kNumErrors) :
    s.GetError e_regSetALL idx =
      Int.lor (Int.lor (Int.lor (errGet s.gpr_errs idx) (errGet s.vfp_errs idx))
                       (errGet s.exc_errs idx))
              (errGet s.dbg_errs idx) := by
  unfold State.GetError
  rw [if_pos h, if_pos rfl]

/-- Witness for C1 at the state `sW1` and index `Read`. -/
theorem State.getError_all_eq_lor_witness :
    Read < kNumErrors ∧
      sW1.GetError e_regSetALL Read =
        Int.lor (Int.lor (Int.lor (errGet sW1.gpr_errs Read) (errGet sW1.vfp_errs Read))
                         (errGet sW1.exc_errs Read))
                (errGet sW1.dbg_errs Read) :=
  ⟨by decide, State.getError_all_eq_lor sW1 Read (by decide)⟩

/-- C2: `RegsAreValid(set)` is true exactly when `GetError(set, Read)` is
`KERN_SUCCESS`; in particular a single non-success per-set read error makes
`RegsAreValid(e_regSetALL)` false. -/
theorem State.regsAreValid_iff (s : State) (set : Int) :
    (s.RegsAreValid set = true ↔ s.GetError set Read = KERN_SUCCESS) ∧
    ((errGet s.gpr_errs Read ≠ KERN_SUCCESS ∨ errGet s.vfp_errs Read ≠ KERN_SUCCESS ∨
      errGet s.exc_errs Read ≠ KERN_SUCCESS ∨ errGet s.dbg_errs Read ≠ KERN_SUCCESS) →
      s.RegsAreValid e_regSetALL = false) := by
  constructor
  · unfold State.RegsAreValid
    exact beq_iff_eq
  · intro h
    have hne : s.GetError e_regSetALL Read ≠ KERN_SUCCESS := by
      intro h0
      unfold State.GetError at h0
      rw [if_pos (by decide : Read < kNumErrors), if_pos rfl] at h0
      obtain ⟨hg, hv, he, hd⟩ := int_lor4_eq_zero _ _ _ _ h0
      rcases h with h | h | h | h
      · exact h hg
      · exact h hv
      · exact h he
      · exact h hd
    unfold State.RegsAreValid
    exact beq_eq_false_iff_ne.mpr hne

/-- Witness for C2 at the state `sW2`, whose GPR read error is `-1`. -/
theorem State.regsAreValid_iff_witness :
    errGet sW2.gpr_errs Read ≠ KERN_SUCCESS ∧ sW2.RegsAreValid e_regSetALL = false :=
  ⟨by decide, (State.regsAreValid_iff sW2 e_regSetALL).2 (Or.inl (by decide))⟩

/-- C9: `SetError(set, idx, e)` with a valid index writes `e` into exactly
the error slots of the named set (all four for `e_regSetALL`), returns true,
and leaves every other error slot, the register context and the debug block
unchanged; an unrecognized set tag or an out-of-range index returns false and
modifies nothing. -/
theorem State.setError_spec (s : State) (idx : Nat) (e : kern_return_t)
    (h : idx < kNumErrors) :
    s.SetError e_regSetGPR idx e = (true, { s with gpr_errs := errSet s.gpr_errs idx e }) ∧
    s.SetError e_regSetVFP idx e = (true, { s with vfp_errs := errSet s.vfp_errs idx e }) ∧
    s.SetError e_regSetEXC idx e = (true, { s with exc_errs := errSet s.exc_errs idx e }) ∧
    s.SetError e_regSetDBG idx e = (true, { s with dbg_errs := errSet s.dbg_errs idx e }) ∧
    s.SetError e_regSetALL idx e =
      (true, { s with gpr_errs := errSet s.gpr_errs idx e
                      vfp_errs := errSet s.vfp_errs idx e
                      exc_errs := errSet s.exc_errs idx e
                      dbg_errs := errSet s.dbg_errs idx e }) ∧
    (∀ set : Int, set ≠ e_regSetALL → set ≠ e_regSetGPR → set ≠ e_regSetVFP →
      set ≠ e_regSetEXC → set ≠ e_regSetDBG → s.SetError set idx e = (false, s)) ∧
    (∀ set : Int, ∀ j : Nat, ¬ j < kNumErrors → s.SetError set j e = (false, s)) := by
  refine ⟨?_, ?_, ?_, ?_, ?_, ?_, ?_⟩
  · unfold State.SetError
    rw [if_pos h, if_neg (by decide), if_pos rfl]
  · unfold State.SetError
    rw [if_pos h, if_neg (by decide), if_neg (by decide), if_pos rfl]
  · unfold State.SetError
    rw [if_pos h, if_neg (by decide), if_neg (by decide), if_neg (by decide), if_pos rfl]
  · unfold State.SetError
    rw [if_pos h, if_neg (by decide), if_neg (by decide), if_neg (by decide),
        if_neg (by decide), if_pos rfl]
  · unfold State.SetError
    rw [if_pos h, if_pos rfl]
  · intro set h1 h2 h3 h4 h5
    unfold State.SetError
    rw [if_pos h, if_neg h1, if_neg h2, if_neg h3, if_neg h4, if_neg h5]
  · intro set j hj
    unfold State.SetError
    rw [if_neg hj]

/-- Witness for C9 at the state `sW9`, set `e_regSetGPR`, index `Read`. -/
theorem State.setError_spec_witness :
    Read < kNumErrors ∧
      sW9.SetError e_regSetGPR Read 7 =
        (true, { sW9 with gpr_errs := errSet sW9.gpr_errs Read 7 }) :=
  ⟨by decide, (State.setError_spec sW9 Read 7 (by decide)).1⟩

/-- C10: a freshly constructed `State` has every per-set read/write error
slot equal to `-1`, and `RegsAreValid` is false for every set tag. -/
theorem State.init_all_invalid (ctx : Context) (dbg : DBG) :
    (State.init ctx dbg).gpr_errs = (-1, -1) ∧
    (State.init ctx dbg).vfp_errs = (-1, -1) ∧
    (State.init ctx dbg).exc_errs = (-1, -1) ∧
    (State.init ctx dbg).dbg_errs = (-1, -1) ∧
    ∀ set : Int, (State.init ctx dbg).RegsAreValid set = false := by
  refine ⟨rfl, rfl, rfl, rfl, ?_⟩
  intro set
  unfold State.RegsAreValid State.GetError State.init
  rw [if_pos (by decide : Read < kNumErrors)]
  split_ifs <;> rfl

/-- C3: for every condition code among the 15 defined ones and every
combination of the N/Z/C/V flags of `cpsr`, `ConditionPassed` returns exactly
the result prescribed by the ARM condition table; in particular GE with
N=1,V=1 is true and LT with N=1,V=1 is false (0x90000000 sets N and V). -/
theorem conditionPassed_matches_table (cond : Nat) (cpsr : Nat) (h : cond ≤ 14) :
    (ConditionPassed cond cpsr =
      armCondTable cond (cpsr.testBit 31) (cpsr.testBit 30)
        (cpsr.testBit 29) (cpsr.testBit 28)) ∧
    ConditionPassed 10 2415919104 = true ∧ ConditionPassed 11 2415919104 = false := by
  refine ⟨?_, by decide, by decide⟩
  interval_cases cond <;> rfl

/-- Witness for C3 at condition code 10 (GE) and cpsr 0x90000000. -/
theorem conditionPassed_matches_table_witness :
    (10 : Nat) ≤ 14 ∧
      ((ConditionPassed 10 2415919104 =
        armCondTable 10 (Nat.testBit 2415919104 31) (Nat.testBit 2415919104 30)
          (Nat.testBit 2415919104 29) (Nat.testBit 2415919104 28)) ∧
       ConditionPassed 10 2415919104 = true ∧ ConditionPassed 11 2415919104 = false) :=
  ⟨by decide, conditionPassed_matches_table 10 2415919104 (by decide)⟩

/-- C4: a conditional instruction whose condition fails steps to PC +
instruction size, never to the branch target; a taken branch whose condition
passes steps to the decoded target, with the Thumb bit toggled on
mode-changing branches. -/
theorem computeNextPC_spec (pc : Nat) (d : DecodedInstruction) (cpsr : Nat) :
    (ConditionPassed d.condition cpsr = false → ComputeNextPC pc d cpsr = pc + d.size) ∧
    (d.isBranch = true → ConditionPassed d.condition cpsr = true →
      ComputeNextPC pc d cpsr = if d.modeChanging then Nat.xor d.target 1 else d.target) := by
  constructor
  · intro hc
    unfold ComputeNextPC
    rw [hc]
    simp
  · intro hb hc
    unfold ComputeNextPC
    rw [hb, hc]
    simp

/-- Witness for C4: the branch `dW4` (condition EQ) under flags all clear
does not take the branch and steps to PC + size. -/
theorem computeNextPC_spec_witness :
    ConditionPassed dW4.condition 0 = false ∧ ComputeNextPC 8 dW4 0 = 8 + dW4.size :=
  ⟨by decide, (computeNextPC_spec 8 dW4 0).1 (by decide)⟩

/-- C7: a watchpoint request whose size is not an allowed watchpoint size or
whose address is not naturally aligned to its size fails with the sentinel
and leaves the slot table (the cached debug-register block) exactly as it
was. -/
theorem enableHardwareWatchpoint_misaligned (slots : List HardwareSlot)
    (addr size : Nat) (rd wr also : Bool)
    (h : (size ≠ 1 ∧ size ≠ 2 ∧ size ≠ 4 ∧ size ≠ 8) ∨ addr % size ≠ 0) :
    EnableHardwareWatchpoint slots addr size rd wr also =
      (INVALID_NUB_HW_INDEX, slots) := by
  have hv : validWatchpointAlignment addr size = false := by
    unfold validWatchpointAlignment
    rcases h with ⟨h1, h2, h3, h4⟩ | h5
    · simp [h1, h2, h3, h4]
    · simp [h5]
  unfold EnableHardwareWatchpoint
  rw [hv]
  simp

/-- Witness for C7: address 3 is misaligned for size 4, and the one-slot
table `wpSlotsW` is returned untouched. -/
theorem enableHardwareWatchpoint_misaligned_witness :
    (3 % 4 ≠ 0) ∧
      EnableHardwareWatchpoint wpSlotsW 3 4 true true false =
        (INVALID_NUB_HW_INDEX, wpSlotsW) :=
  ⟨by decide,
   enableHardwareWatchpoint_misaligned wpSlotsW 3 4 true true false (Or.inr (by decide))⟩

/-- Scanning a slot table in which every slot is enabled finds no free slot. -/
theorem findFreeSlotIdx_none (slots : List HardwareSlot) (k : Nat)
    (h : ∀ s ∈ slots, s.enabled = true) : findFreeSlotIdx slots k = none := by
  induction slots generalizing k with
  | nil => rfl
  | cons s rest ih =>
    unfold findFreeSlotIdx
    rw [h s (List.mem_cons_self s rest)]
    simp only [if_true]
    exact ih (k + 1) (fun x hx => h x (List.mem_cons_of_mem s hx))

/-- Disabling slot `i` of a fully-enabled table makes `i` the first free
slot found by the scan. -/
theorem findFreeSlotIdx_set_disabled (slots : List HardwareSlot) (d : HardwareSlot) :
    ∀ (i k : Nat), i < slots.length → (∀ s ∈ slots, s.enabled = true) →
      findFreeSlotIdx (slots.set i { slots.getD i d with enabled := false }) k =
        some (k + i) := by
  induction slots with
  | nil => intro i k hi _; simp at hi
  | cons s rest ih =>
    intro i k hi h
    cases i with
    | zero =>
      simp only [List.set_cons_zero, List.getD_cons_zero]
      unfold findFreeSlotIdx
      simp
    | succ i =>
      simp only [List.set_cons_succ, List.getD_cons_succ]
      unfold findFreeSlotIdx
      rw [h s (List.mem_cons_self s rest)]
      simp only [if_true]
      rw [ih i (k + 1) (by simpa using hi) (fun x hx => h x (List.mem_cons_of_mem s hx))]
      congr 1
      omega

/-- C8: with every hardware-breakpoint slot allocated, a further Enable
returns the no-free-slot sentinel and changes nothing; after disabling any
one slot, the next Enable succeeds and returns exactly the freed index. -/
theorem hwBreakpoint_exhaust_and_reuse (slots : List HardwareSlot)
    (addr size addr2 size2 : Nat) (hfull : ∀ s ∈ slots, s.enabled = true) :
    EnableHardwareBreakpoint slots addr size = (INVALID_NUB_HW_INDEX, slots) ∧
    ∀ i, i < slots.length →
      (EnableHardwareBreakpoint (DisableHardwareBreakpoint slots i).2 addr2 size2).1 = i := by
  constructor
  · unfold EnableHardwareBreakpoint
    rw [findFreeSlotIdx_none slots 0 hfull]
  · intro i hi
    unfold DisableHardwareBreakpoint
    rw [if_pos hi]
    unfold EnableHardwareBreakpoint
    rw [findFreeSlotIdx_set_disabled slots ⟨0, 0, false, false, false⟩ i 0 hi hfull]
    simp

/-- Witness for C8 on the full two-slot table `bpSlotsW`: a third Enable
yields the sentinel, and after disabling slot 1 the next Enable returns 1. -/
theorem hwBreakpoint_exhaust_and_reuse_witness :
    EnableHardwareBreakpoint bpSlotsW 8 4 = (INVALID_NUB_HW_INDEX, bpSlotsW) ∧
      (EnableHardwareBreakpoint (DisableHardwareBreakpoint bpSlotsW 1).2 12 4).1 = 1 :=
  ⟨(hwBreakpoint_exhaust_and_reuse bpSlotsW 8 4 12 4 (by decide)).1,
   (hwBreakpoint_exhaust_and_reuse bpSlotsW 8 4 12 4 (by decide)).2 1 (by decide)⟩

end DNBArchMachARM

namespace lldb_private

/-- The address index answers a lookup exactly when the address is among its
keys. -/
theorem find_isSome_iff_mem_keys (l : BreakpointLocationList) (a : Address) :
    (l.FindByAddress a).isSome ↔ a ∈ l.keys := by
  unfold BreakpointLocationList.FindByAddress BreakpointLocationList.keys
  cases hf : l.m_address_to_location.find? (fun p => p.1 == a) with
  | none =>
    rw [List.find?_eq_none] at hf
    simp only [Option.isSome_none, Bool.false_eq_true, false_iff]
    intro hmem
    rw [List.mem_map] at hmem
    obtain ⟨p, hp, hpa⟩ := hmem
    exact hf p hp (by simp [hpa])
  | some p =>
    have h1 := List.find?_some hf
    have h2 := List.mem_of_find?_eq_some hf
    simp only [Option.isSome_some, true_iff]
    rw [List.mem_map]
    exact ⟨p, h2, by simpa using h1⟩

/-- `AddLocation` extends the key set by the address exactly when the address
was not yet indexed. -/
theorem keys_addLocation (l : BreakpointLocationList) (a : Address) :
    (l.AddLocation a).2.2.keys =
      if (l.FindByAddress a).isSome then l.keys else a :: l.keys := by
  unfold BreakpointLocationList.AddLocation
  cases hf : l.FindByAddress a with
  | some loc => simp [hf]
  | none => simp [hf, BreakpointLocationList.Create, BreakpointLocationList.keys]

/-- `AddLocation` grows the location list by one exactly when the address was
not yet indexed. -/
theorem getSize_addLocation (l : BreakpointLocationList) (a : Address) :
    (l.AddLocation a).2.2.GetSize =
      if (l.FindByAddress a).isSome then l.GetSize else l.GetSize + 1 := by
  unfold BreakpointLocationList.AddLocation
  cases hf : l.FindByAddress a with
  | some loc => simp [hf]
  | none => simp [hf, BreakpointLocationList.Create, BreakpointLocationList.GetSize]

/-- Registry size after a sequence of `AddLocation` calls is the old size
plus the number of calls that created a location. -/
theorem getSize_runAdds (addrs : List Address) :
    ∀ l : BreakpointLocationList,
      (l.runAdds addrs).GetSize = l.GetSize + l.newAddrCount addrs := by
  induction addrs with
  | nil =>
    intro l
    simp [BreakpointLocationList.runAdds, BreakpointLocationList.newAddrCount]
  | cons a rest ih =>
    intro l
    have hrun : l.runAdds (a :: rest) = (l.AddLocation a).2.2.runAdds rest := rfl
    have hrec : l.newAddrCount (a :: rest) =
        (if (l.FindByAddress a).isSome then 0 else 1) +
          (l.AddLocation a).2.2.newAddrCount rest := rfl
    rw [hrun, ih, getSize_addLocation, hrec]
    cases hf : (l.FindByAddress a).isSome
    · simp [hf]
      omega
    · simp [hf]

/-- Inserting an element has the cardinality of erasing it, plus one. -/
theorem card_insert_erase (S : Finset Address) (a : Address) :
    (insert a S).card = (S.erase a).card + 1 := by
  rw [← Finset.card_insert_of_not_mem (Finset.not_mem_erase a S)]
  congr 1
  ext x
  by_cases hx : x = a <;> simp [hx]

/-- The number of creating `AddLocation` calls in a sequence is the number of
distinct addresses in it that are not already indexed. -/
theorem newAddrCount_eq_card (addrs : List Address) :
    ∀ l : BreakpointLocationList,
      l.newAddrCount addrs = (addrs.toFinset \ l.keys.toFinset).card := by
  induction addrs with
  | nil => intro l; simp [BreakpointLocationList.newAddrCount]
  | cons a rest ih =>
    intro l
    have hrec : l.newAddrCount (a :: rest) =
        (if (l.FindByAddress a).isSome then 0 else 1) +
          (l.AddLocation a).2.2.newAddrCount rest := rfl
    rw [hrec, ih, keys_addLocation]
    by_cases hf : (l.FindByAddress a).isSome
    · have ha : a ∈ l.keys := (find_isSome_iff_mem_keys l a).mp hf
      rw [if_pos hf, if_pos hf]
      have he : (a :: rest).toFinset \ l.keys.toFinset =
          rest.toFinset \ l.keys.toFinset := by
        rw [List.toFinset_cons]
        ext x
        simp only [Finset.mem_sdiff, Finset.mem_insert]
        constructor
        · rintro ⟨hx | hx, hk⟩
          · exact absurd (hx ▸ List.mem_toFinset.mpr ha) hk
          · exact ⟨hx, hk⟩
        · rintro ⟨hx, hk⟩
          exact ⟨Or.inr hx, hk⟩
      rw [he]
      omega
    · have ha : a ∉ l.keys := fun hm => hf ((find_isSome_iff_mem_keys l a).mpr hm)
      have hK : a ∉ l.keys.toFinset := fun hc => ha (List.mem_toFinset.mp hc)
      rw [if_neg hf, if_neg hf, List.toFinset_cons, List.toFinset_cons,
          Finset.sdiff_insert, Finset.insert_sdiff_of_not_mem _ hK, card_insert_erase]
      omega

/-- A freshly created location is found by a lookup at its address. -/
theorem find_create (l : BreakpointLocationList) (a : Address) :
    (l.Create a).2.FindByAddress a = some (l.Create a).1 := by
  unfold BreakpointLocationList.Create BreakpointLocationList.FindByAddress
  rw [List.find?_cons_of_pos _ (by simp)]

/-- C5: for every sequence of `AddLocation` calls on an empty registry, the
registry size equals the number of distinct addresses; an `AddLocation` on an
already-indexed address returns the existing location with
`new_location = false`, idempotently, while a fresh address appends to the
location list, reports `new_location = true`, and updates the address
index. -/
theorem addLocation_registry_spec (addrs : List Address)
    (l : BreakpointLocationList) (a : Address) (loc : BreakpointLocation) :
    (BreakpointLocationList.empty.runAdds addrs).GetSize = addrs.toFinset.card ∧
    (l.FindByAddress a = some loc → l.AddLocation a = (loc, false, l)) ∧
    (l.FindByAddress a = none →
      (l.AddLocation a).2.2.m_locations = l.m_locations ++ [(l.AddLocation a).1] ∧
      (l.AddLocation a).2.1 = true ∧
      (l.AddLocation a).2.2.FindByAddress a = some (l.AddLocation a).1) := by
  refine ⟨?_, ?_, ?_⟩
  · rw [getSize_runAdds, newAddrCount_eq_card]
    simp [BreakpointLocationList.empty, BreakpointLocationList.GetSize,
          BreakpointLocationList.keys]
  · intro h
    unfold BreakpointLocationList.AddLocation
    rw [h]
  · intro h
    unfold BreakpointLocationList.AddLocation
    rw [h]
    exact ⟨rfl, rfl, find_create l a⟩

/-- Witness for C5: the sequence 5, 7, 5 yields two locations, and a repeated
`AddLocation` at address 5 on the registry `lW` idempotently returns the
existing location id 1. -/
theorem addLocation_registry_spec_witness :
    (BreakpointLocationList.empty.runAdds [5, 7, 5]).GetSize =
      ([5, 7, 5] : List Address).toFinset.card ∧
    lW.AddLocation 5 = (⟨1, 5⟩, false, lW) :=
  ⟨(addLocation_registry_spec [5, 7, 5] lW 5 ⟨1, 5⟩).1,
   (addLocation_registry_spec [5, 7, 5] lW 5 ⟨1, 5⟩).2.1 (by decide)⟩

/-- No registry operation ever decreases the id counter. -/
theorem next_id_applyOp (l : BreakpointLocationList) (op : BpOp) :
    l.m_next_id ≤ (applyOp l op).m_next_id := by
  cases op with
  | add a =>
    unfold applyOp BreakpointLocationList.AddLocation
    cases hf : l.FindByAddress a with
    | some loc => simp [hf]
    | none => simp [hf, BreakpointLocationList.Create]
  | remove loc =>
    show l.m_next_id ≤ (l.RemoveLocation loc).2.m_next_id
    unfold BreakpointLocationList.RemoveLocation
    by_cases hc : l.m_locations.contains loc
    · rw [if_pos hc]
    · rw [if_neg hc]

/-- Along any trace, every id ever issued is bounded by the final value of
the id counter. -/
theorem runTrace_ids_le (ops : List BpOp) :
    ∀ (l : BreakpointLocationList) (ids : List break_id_t),
      (∀ id ∈ ids, id ≤ l.m_next_id) →
      ∀ id ∈ (runTrace (l, ids) ops).2, id ≤ (runTrace (l, ids) ops).1.m_next_id := by
  induction ops with
  | nil => intro l ids h id hid; exact h id hid
  | cons op rest ih =>
    intro l ids h
    have hstep : runTrace (l, ids) (op :: rest) =
        runTrace (applyOp l op, ids ++ issuedOp l op) rest := rfl
    rw [hstep]
    apply ih
    intro id hid
    rw [List.mem_append] at hid
    rcases hid with hid | hid
    · exact le_trans (h id hid) (next_id_applyOp l op)
    · cases op with
      | add a =>
        simp only [issuedOp] at hid
        by_cases hf : (l.FindByAddress a).isSome
        · rw [if_pos hf] at hid
          simp at hid
        · rw [if_neg hf] at hid
          simp at hid
          subst hid
          show l.m_next_id + 1 ≤ (l.AddLocation a).2.2.m_next_id
          unfold BreakpointLocationList.AddLocation
          cases hff : l.FindByAddress a with
          | some loc => exact absurd (by simp [hff]) hf
          | none => simp [hff, BreakpointLocationList.Create]
      | remove loc => simp [issuedOp] at hid

/-- C6: along any trace of `AddLocation`/`RemoveLocation` operations on an
empty registry — in particular one that removes a location — a subsequent
`Create` yields an id strictly greater than, hence different from, every id
ever issued before. -/
theorem ids_never_reused (ops : List BpOp) (a : Address) :
    ∀ id ∈ (runTrace (BreakpointLocationList.empty, []) ops).2,
      id < ((runTrace (BreakpointLocationList.empty, []) ops).1.Create a).1.id := by
  intro id hid
  have h := runTrace_ids_le ops BreakpointLocationList.empty []
    (by intro x hx; simp at hx) id hid
  have hc : ((runTrace (BreakpointLocationList.empty, []) ops).1.Create a).1.id =
      (runTrace (BreakpointLocationList.empty, []) ops).1.m_next_id + 1 := rfl
  rw [hc]
  exact Nat.lt_succ_of_le h

/-- Witness for C6: the trace `opsW` creates location id 1 at address 5 and
removes it; re-creating at address 5 yields id 2, which exceeds id 1. -/
theorem ids_never_reused_witness :
    (1 ∈ (runTrace (BreakpointLocationList.empty, []) opsW).2) ∧
      1 < ((runTrace (BreakpointLocationList.empty, []) opsW).1.Create 5).1.id :=
  ⟨by decide, ids_never_reused opsW 5 1 (by decide)⟩

end lldb_private
